import Mathlib

/-!
Formal model of the activity-roster logic of `src/app.py` (Mergington High School
API): the in-memory `activities` mapping, activity-name validation, and the two
mutating request handlers `signup_for_activity` and `unregister_from_activity`.
HTTP plumbing is modelled as explicit inputs and outputs: each handler becomes a
function from the current store and the request parameters to the HTTP outcome
(`Except HTTPException message`) paired with the store after the call.
-/

set_option autoImplicit false

namespace HighSchoolApi

/-- Outcome of raising `HTTPException(status_code=..., detail=...)` in `src/app.py`. -/
structure HTTPException where
  statusCode : Nat
  detail : String
  deriving DecidableEq

/-- One activity record as stored in the `activities` dict. `participants` is an
`Option` because a JSON-loaded record may lack the `"participants"` key entirely;
`signup_for_activity` installs it via `dict.setdefault`, `unregister_from_activity`
reads it via `dict.get` without installing it. -/
structure Activity where
  description : String
  schedule : String
  max_participants : Nat
  participants : Option (List String)
  deriving DecidableEq

/-- Replace the participants field of a record, as Python mutation of
`activity["participants"]` does. -/
def Activity.withParticipants (a : Activity) (p : List String) : Activity :=
  ⟨a.description, a.schedule, a.max_participants, some p⟩

/-- The in-memory `activities` dict, modelled as an insertion-ordered association
list from activity name to record (Python dict keys are unique). -/
abbrev Store := List (String × Activity)

/-- Python `activities[name]` lookup (and the `name in activities` test): the first
binding of `name`. -/
def Store.find? : Store → String → Option Activity
  | [], _ => none
  | (k, a) :: rest, key => if k = key then some a else Store.find? rest key

/-- Python `activities[name] = a`: replace the first binding of `name`, or append a
new binding if the key is absent. -/
def Store.set : Store → String → Activity → Store
  | [], key, a => [(key, a)]
  | (k, b) :: rest, key, a =>
    if k = key then (key, a) :: rest else (k, b) :: Store.set rest key a

/-- Python `re` word character (`\w` on `str`): a character matched by
`str.isalnum`, or an underscore. Modelled exactly for code points below `0x100`
(ASCII word characters, the Latin-1 superscripts, fractions and micro sign of
categories No and Ll, and the Latin-1 letters excluding the multiplication sign
`0xD7` and division sign `0xF7`); theorems that depend on the precise character
class restrict names to code points below `0x100`. -/
def pyWordChar (c : Char) : Bool :=
  (0x41 ≤ c.toNat && c.toNat ≤ 0x5A) || (0x61 ≤ c.toNat && c.toNat ≤ 0x7A) ||
  (0x30 ≤ c.toNat && c.toNat ≤ 0x39) || c.toNat == 0x5F ||
  c.toNat == 0xAA || c.toNat == 0xB2 || c.toNat == 0xB3 || c.toNat == 0xB5 ||
  c.toNat == 0xB9 || c.toNat == 0xBA || c.toNat == 0xBC || c.toNat == 0xBD ||
  c.toNat == 0xBE ||
  (0xC0 ≤ c.toNat && c.toNat ≤ 0xFF && c.toNat != 0xD7 && c.toNat != 0xF7)

/-- Python `re` whitespace (`\s` on `str`), modelled exactly for code points below
`0x100`: tab through carriage return, the C0 separators `0x1C`-`0x1F`, space, next
line `0x85`, and no-break space `0xA0`. -/
def pySpaceChar (c : Char) : Bool :=
  (0x09 ≤ c.toNat && c.toNat ≤ 0x0D) || (0x1C ≤ c.toNat && c.toNat ≤ 0x1F) ||
  c.toNat == 0x20 || c.toNat == 0x85 || c.toNat == 0xA0

/-- One item of the character class in the validation pattern. -/
inductive ClassItem where
  | word
  | space
  | lit (c : Char)
  deriving DecidableEq

/-- Whether a class item matches one character. -/
def ClassItem.matchesChar : ClassItem → Char → Bool
  | .word, c => pyWordChar c
  | .space, c => pySpaceChar c
  | .lit d, c => c == d

/-- The character class of the pattern in `validate_activity_name`: word character,
whitespace, hyphen, apostrophe. -/
def nameClass : List ClassItem :=
  [.word, .space, .lit (Char.ofNat 0x2D), .lit (Char.ofNat 0x27)]

/-- Python `$`: matches at the end of the string, or just before a newline that ends
the string. -/
def dollarAt : List Char → Bool
  | [] => true
  | [c] => c == Char.ofNat 0x0A
  | _ :: _ :: _ => false

/-- Match of `[cls]+$` at the current position, with backtracking: consume one or
more class characters, then the dollar anchor. -/
def matchPlusDollar (cls : List ClassItem) : List Char → Bool
  | [] => false
  | c :: rest =>
    cls.any (fun it => it.matchesChar c) && (dollarAt rest || matchPlusDollar cls rest)

/-- The regex test of `src/app.py` line 75: `re.match` of the anchored pattern
whose one character class is `nameClass` (word, whitespace, hyphen, apostrophe),
repeated one or more times, followed by the dollar anchor. `re.match` is itself
anchored at the start of the string. -/
def nameRegexAccepts (name : String) : Bool :=
  matchPlusDollar nameClass name.data

/-- `validate_activity_name` (`src/app.py` lines 66-76): `some e` when the function
raises `HTTPException e`, `none` when it returns normally. -/
def validate_activity_name (name : String) : Option HTTPException :=
  if 1 ≤ name.length ∧ name.length ≤ 100 then
    if nameRegexAccepts name then none
    else some ⟨400, "Activity name contains invalid characters"⟩
  else some ⟨400, "Invalid activity name length"⟩

/-- Python truthiness of an optional string: `None` and the empty string are falsy. -/
def truthyStr : Option String → Bool
  | none => false
  | some s => s ≠ ""

/-- Email resolution in `signup_for_activity` (`src/app.py` lines 97-102): the
JSON-body email when present and non-empty, else the legacy query parameter when
non-empty, else nothing. -/
def resolveEmail (payload email : Option String) : Option String :=
  if truthyStr payload then payload
  else if truthyStr email then email
  else none

/-- `signup_for_activity` (`src/app.py` lines 89-125) as a function from the current
store and the request inputs to the HTTP outcome and the store after the call.
`payload` is the optional JSON-body email, `email` the optional legacy query
parameter. `activity.setdefault("participants", [])` installs an empty roster on
the record before the membership check, so that mutation is applied to the store
even on the already-signed-up error path. -/
def signup_for_activity (activities : Store) (activity_name : String)
    (payload : Option String) (email : Option String) :
    Except HTTPException String × Store :=
  match validate_activity_name activity_name with
  | some e => (Except.error e, activities)
  | none =>
    match resolveEmail payload email with
    | none => (Except.error ⟨400, "Email is required"⟩, activities)
    | some user_email =>
      match Store.find? activities activity_name with
      | none => (Except.error ⟨404, "Activity not found"⟩, activities)
      | some activity =>
        let participants := activity.participants.getD []
        let activities1 :=
          Store.set activities activity_name (activity.withParticipants participants)
        if user_email ∈ participants then
          (Except.error ⟨400, "Student is already signed up"⟩, activities1)
        else
          (Except.ok ("Signed up " ++ user_email ++ " for " ++ activity_name),
           Store.set activities1 activity_name
             (activity.withParticipants (participants ++ [user_email])))

/-- `unregister_from_activity` (`src/app.py` lines 128-151). `email` is a required
query parameter. `activity.get("participants", [])` reads the roster without
installing the key, and `list.remove` deletes the first occurrence. -/
def unregister_from_activity (activities : Store) (activity_name : String)
    (email : String) : Except HTTPException String × Store :=
  match validate_activity_name activity_name with
  | some e => (Except.error e, activities)
  | none =>
    match Store.find? activities activity_name with
    | none => (Except.error ⟨404, "Activity not found"⟩, activities)
    | some activity =>
      let participants := activity.participants.getD []
      if email ∈ participants then
        (Except.ok ("Unregistered " ++ email ++ " from " ++ activity_name),
         Store.set activities activity_name
           (activity.withParticipants (participants.erase email)))
      else
        (Except.error ⟨400, "Student is not signed up for this activity"⟩, activities)

/-- The embedded default Chess Club record of `src/app.py` lines 41-46. -/
def chessClubRecord : Activity :=
  ⟨"Learn strategies and compete in chess tournaments",
   "Fridays, 3:30 PM - 5:00 PM", 12,
   some ["michael@mergington.edu", "daniel@mergington.edu"]⟩

/-- The embedded default Programming Class record of `src/app.py` lines 47-52. -/
def programmingClassRecord : Activity :=
  ⟨"Learn programming fundamentals and build software projects",
   "Tuesdays and Thursdays, 3:30 PM - 4:30 PM", 20,
   some ["emma@mergington.edu", "sophia@mergington.edu"]⟩

/-- The embedded default Gym Class record of `src/app.py` lines 53-58. -/
def gymClassRecord : Activity :=
  ⟨"Physical education and sports activities",
   "Mondays, Wednesdays, Fridays, 2:00 PM - 3:00 PM", 30,
   some ["john@mergington.edu", "olivia@mergington.edu"]⟩

/-- The embedded default activities of `src/app.py` lines 40-59, used when
`activities.json` does not exist. -/
def default_activities : Store :=
  [("Chess Club", chessClubRecord),
   ("Programming Class", programmingClassRecord),
   ("Gym Class", gymClassRecord)]

/-- The three ways reading `activities.json` at startup can go. -/
inductive ActivitiesSource where
  | absent
  | unreadable
  | parsed (m : Store)

/-- Startup load of `activities` (`src/app.py` lines 30-59): if the file exists and
parses, the parsed mapping is used; if it exists but reading or parsing raises, the
code falls back to the empty dict; if the file does not exist, the embedded
`default_activities` are used. -/
def load_activities : ActivitiesSource → Store
  | .absent => default_activities
  | .unreadable => []
  | .parsed m => m

/-- The character set the specification claims for C3: ASCII letters, digits,
underscore, ASCII whitespace, hyphen, apostrophe. Stated from the claim text, for
comparison against the implementation class `nameClass`. -/
def specAsciiAllowed (c : Char) : Bool :=
  (0x41 ≤ c.toNat && c.toNat ≤ 0x5A) || (0x61 ≤ c.toNat && c.toNat ≤ 0x7A) ||
  (0x30 ≤ c.toNat && c.toNat ≤ 0x39) || c.toNat == 0x5F ||
  (0x09 ≤ c.toNat && c.toNat ≤ 0x0D) || c.toNat == 0x20 ||
  c.toNat == 0x2D || c.toNat == 0x27

/-- The full character predicate the validation regex applies to each character. -/
def nameAllowedChar (c : Char) : Bool :=
  pyWordChar c || pySpaceChar c || c == Char.ofNat 0x2D || c == Char.ofNat 0x27

/-- No activity roster in the store holds the same email twice. -/
def StoreNodup (s : Store) : Prop :=
  ∀ p ∈ s, ((p.2).participants.getD []).Nodup

instance (s : Store) : Decidable (StoreNodup s) :=
  inferInstanceAs (Decidable (∀ p ∈ s, ((p.2).participants.getD []).Nodup))

/-- A one-activity store whose roster is already at `max_participants`, for
exercising the absent capacity check. -/
def fullRosterStore : Store :=
  [("Chess Club", ⟨"Chess", "Fridays", 1, some ["alice@mergington.edu"]⟩)]

/-- A one-activity store whose record lacks the participants field, as a JSON-loaded
record without a `"participants"` key would. -/
def noRosterStore : Store :=
  [("Art Club", ⟨"Drawing and painting", "Mondays", 5, none⟩)]

theorem Store.find?_mem {s : Store} {k : String} {a : Activity}
    (h : Store.find? s k = some a) : (k, a) ∈ s := by
  induction s with
  | nil => simp [Store.find?] at h
  | cons p rest ih =>
    obtain ⟨k1, b⟩ := p
    by_cases hk : k1 = k
    · subst hk
      simp [Store.find?] at h
      subst h
      exact List.mem_cons_self _ _
    · simp [Store.find?, hk] at h
      exact List.mem_cons_of_mem _ (ih h)

theorem Store.find?_set_self (s : Store) (k : String) (a : Activity) :
    Store.find? (Store.set s k a) k = some a := by
  induction s with
  | nil => simp [Store.set, Store.find?]
  | cons p rest ih =>
    obtain ⟨k1, b⟩ := p
    by_cases hk : k1 = k <;> simp [Store.set, Store.find?, hk, ih]

theorem Store.find?_set_ne (s : Store) (k k2 : String) (a : Activity) (h : k2 ≠ k) :
    Store.find? (Store.set s k a) k2 = Store.find? s k2 := by
  have h2 : k ≠ k2 := Ne.symm h
  induction s with
  | nil => simp [Store.set, Store.find?, h2]
  | cons p rest ih =>
    obtain ⟨k1, b⟩ := p
    by_cases hk : k1 = k
    · subst hk
      simp [Store.set, Store.find?, h2]
    · simp only [Store.set, if_neg hk]
      by_cases hk2 : k1 = k2 <;> simp [Store.find?, hk2, ih]

theorem Store.set_set (s : Store) (k : String) (a b : Activity) :
    Store.set (Store.set s k a) k b = Store.set s k b := by
  induction s with
  | nil => simp [Store.set]
  | cons p rest ih =>
    obtain ⟨k1, c⟩ := p
    by_cases hk : k1 = k <;> simp [Store.set, hk, ih]

theorem Store.set_eq_of_find? {s : Store} {k : String} {a : Activity}
    (h : Store.find? s k = some a) : Store.set s k a = s := by
  induction s with
  | nil => simp [Store.find?] at h
  | cons p rest ih =>
    obtain ⟨k1, b⟩ := p
    by_cases hk : k1 = k
    · subst hk
      simp [Store.find?] at h
      subst h
      simp [Store.set]
    · simp [Store.find?, hk] at h
      simp [Store.set, hk, ih h]

theorem Store.mem_set {s : Store} {k : String} {a : Activity} {p : String × Activity}
    (h : p ∈ Store.set s k a) : p ∈ s ∨ p = (k, a) := by
  induction s with
  | nil => simp [Store.set] at h; simp [h]
  | cons q rest ih =>
    obtain ⟨k1, b⟩ := q
    by_cases hk : k1 = k
    · subst hk
      simp [Store.set] at h
      rcases h with h | h
      · exact Or.inr h
      · exact Or.inl (List.mem_cons_of_mem _ h)
    · simp [Store.set, hk] at h
      rcases h with h | h
      · exact Or.inl (by simp [h])
      · rcases ih h with h2 | h2
        · exact Or.inl (List.mem_cons_of_mem _ h2)
        · exact Or.inr h2

theorem dollarAt_iff (l : List Char) :
    dollarAt l = true ↔ l = [] ∨ l = [Char.ofNat 0x0A] := by
  match l with
  | [] => simp [dollarAt]
  | [c] => simp [dollarAt]
  | a :: b :: t => simp [dollarAt]

theorem matchPlusDollar_iff (cls : List ClassItem)
    (hnl : cls.any (fun it => it.matchesChar (Char.ofNat 0x0A)) = true) (l : List Char) :
    matchPlusDollar cls l = true ↔
      l ≠ [] ∧ ∀ c ∈ l, cls.any (fun it => it.matchesChar c) = true := by
  induction l with
  | nil => simp [matchPlusDollar]
  | cons c rest ih =>
    simp only [matchPlusDollar, Bool.and_eq_true, Bool.or_eq_true, ih, dollarAt_iff]
    constructor
    · rintro ⟨hc, h2⟩
      refine ⟨by simp, ?_⟩
      intro x hx
      rcases List.mem_cons.mp hx with rfl | hx
      · exact hc
      · rcases h2 with (rfl | rfl) | ⟨hne, hall⟩
        · cases hx
        · rcases List.mem_singleton.mp hx with rfl
          exact hnl
        · exact hall x hx
    · rintro ⟨-, hall⟩
      refine ⟨hall c (List.mem_cons_self _ _), ?_⟩
      cases rest with
      | nil => exact Or.inl (Or.inl rfl)
      | cons d t =>
        exact Or.inr ⟨by simp, fun x hx => hall x (List.mem_cons_of_mem _ hx)⟩

theorem nameClass_any (c : Char) :
    nameClass.any (fun it => it.matchesChar c) = nameAllowedChar c := by
  simp [nameClass, ClassItem.matchesChar, nameAllowedChar, Bool.or_assoc]

theorem nameRegexAccepts_iff (name : String) :
    nameRegexAccepts name = true ↔
      name.data ≠ [] ∧ ∀ c ∈ name.data, nameAllowedChar c = true := by
  have hnl : nameClass.any (fun it => it.matchesChar (Char.ofNat 0x0A)) = true := by
    decide
  rw [nameRegexAccepts, matchPlusDollar_iff nameClass hnl]
  simp [nameClass_any]

theorem validate_activity_name_eq_none_iff (name : String) :
    validate_activity_name name = none ↔
      1 ≤ name.length ∧ name.length ≤ 100 ∧
      ∀ c ∈ name.data, nameAllowedChar c = true := by
  have hlen : name.length = name.data.length := rfl
  unfold validate_activity_name
  split_ifs with hl hre
  · exact iff_of_true rfl
      ⟨hl.1, hl.2, fun c hc => ((nameRegexAccepts_iff name).mp hre).2 c hc⟩
  · have hne : name.data ≠ [] := by
      have h1 := hl.1
      rw [hlen] at h1
      exact List.length_pos.mp h1
    refine iff_of_false (by simp) ?_
    rintro ⟨-, -, hall⟩
    exact hre ((nameRegexAccepts_iff name).mpr ⟨hne, hall⟩)
  · refine iff_of_false (by simp) ?_
    rintro ⟨h1, h2, -⟩
    exact hl ⟨h1, h2⟩

theorem char_eq_ofNat_of_toNat_eq {c : Char} {n : Nat} (hc : c.toNat = n)
    (hn : (Char.ofNat n).toNat = n) : c = Char.ofNat n := by
  apply Char.ext
  apply UInt32.ext
  simpa [Char.toNat] using hc.trans hn.symm

theorem signup_eq_of_validate_error (s : Store) (n : String) (p q : Option String)
    (ex : HTTPException) (hv : validate_activity_name n = some ex) :
    signup_for_activity s n p q = (Except.error ex, s) := by
  simp [signup_for_activity, hv]

theorem signup_eq_of_missing_email (s : Store) (n : String) (p q : Option String)
    (hv : validate_activity_name n = none) (he : resolveEmail p q = none) :
    signup_for_activity s n p q = (Except.error ⟨400, "Email is required"⟩, s) := by
  simp [signup_for_activity, hv, he]

theorem signup_eq_of_not_found (s : Store) (n : String) (p q : Option String)
    (e : String) (hv : validate_activity_name n = none)
    (he : resolveEmail p q = some e) (hf : Store.find? s n = none) :
    signup_for_activity s n p q = (Except.error ⟨404, "Activity not found"⟩, s) := by
  simp [signup_for_activity, hv, he, hf]

theorem withParticipants_getD_eq_self {a : Activity} {l : List String}
    (hl : a.participants = some l) :
    a.withParticipants (a.participants.getD []) = a := by
  cases a
  simp [Activity.withParticipants] at hl ⊢
  simp [hl]

theorem signup_eq_of_already (s : Store) (n : String) (p q : Option String)
    (e : String) (a : Activity) (hv : validate_activity_name n = none)
    (he : resolveEmail p q = some e) (hf : Store.find? s n = some a)
    (hm : e ∈ a.participants.getD []) :
    signup_for_activity s n p q =
      (Except.error ⟨400, "Student is already signed up"⟩, s) := by
  obtain ⟨l, hl⟩ : ∃ l, a.participants = some l := by
    cases hp : a.participants with
    | none => rw [hp] at hm; simp at hm
    | some l => exact ⟨l, rfl⟩
  simp [signup_for_activity, hv, he, hf, hm, withParticipants_getD_eq_self hl,
    Store.set_eq_of_find? hf]

theorem signup_eq_of_success (s : Store) (n : String) (p q : Option String)
    (e : String) (a : Activity) (hv : validate_activity_name n = none)
    (he : resolveEmail p q = some e) (hf : Store.find? s n = some a)
    (hm : e ∉ a.participants.getD []) :
    signup_for_activity s n p q =
      (Except.ok ("Signed up " ++ e ++ " for " ++ n),
       Store.set s n (a.withParticipants (a.participants.getD [] ++ [e]))) := by
  simp [signup_for_activity, hv, he, hf, hm, Store.set_set]

theorem unregister_eq_of_validate_error (s : Store) (n e : String)
    (ex : HTTPException) (hv : validate_activity_name n = some ex) :
    unregister_from_activity s n e = (Except.error ex, s) := by
  simp [unregister_from_activity, hv]

theorem unregister_eq_of_not_found (s : Store) (n e : String)
    (hv : validate_activity_name n = none) (hf : Store.find? s n = none) :
    unregister_from_activity s n e = (Except.error ⟨404, "Activity not found"⟩, s) := by
  simp [unregister_from_activity, hv, hf]

theorem unregister_eq_of_not_signed (s : Store) (n e : String) (a : Activity)
    (hv : validate_activity_name n = none) (hf : Store.find? s n = some a)
    (hm : e ∉ a.participants.getD []) :
    unregister_from_activity s n e =
      (Except.error ⟨400, "Student is not signed up for this activity"⟩, s) := by
  simp [unregister_from_activity, hv, hf, hm]

theorem unregister_eq_of_success (s : Store) (n e : String) (a : Activity)
    (hv : validate_activity_name n = none) (hf : Store.find? s n = some a)
    (hm : e ∈ a.participants.getD []) :
    unregister_from_activity s n e =
      (Except.ok ("Unregistered " ++ e ++ " from " ++ n),
       Store.set s n (a.withParticipants ((a.participants.getD []).erase e))) := by
  simp [unregister_from_activity, hv, hf, hm]

theorem signup_store_unchanged_of_error (s : Store) (n : String)
    (p q : Option String) (ex : HTTPException)
    (h : (signup_for_activity s n p q).1 = Except.error ex) :
    (signup_for_activity s n p q).2 = s := by
  cases hv : validate_activity_name n with
  | some e2 => rw [signup_eq_of_validate_error s n p q e2 hv]
  | none =>
    cases he : resolveEmail p q with
    | none => rw [signup_eq_of_missing_email s n p q hv he]
    | some e =>
      cases hf : Store.find? s n with
      | none => rw [signup_eq_of_not_found s n p q e hv he hf]
      | some a =>
        by_cases hm : e ∈ a.participants.getD []
        · rw [signup_eq_of_already s n p q e a hv he hf hm]
        · rw [signup_eq_of_success s n p q e a hv he hf hm] at h
          simp at h

theorem signup_error_eq (s : Store) (n : String) (p q : Option String)
    (ex : HTTPException)
    (h : (signup_for_activity s n p q).1 = Except.error ex) :
    signup_for_activity s n p q = (Except.error ex, s) := by
  have h2 := signup_store_unchanged_of_error s n p q ex h
  calc signup_for_activity s n p q
      = ((signup_for_activity s n p q).1, (signup_for_activity s n p q).2) :=
        Prod.mk.eta.symm
    _ = (Except.error ex, s) := by rw [h, h2]

theorem unregister_store_unchanged_of_error (s : Store) (n e : String)
    (ex : HTTPException)
    (h : (unregister_from_activity s n e).1 = Except.error ex) :
    (unregister_from_activity s n e).2 = s := by
  cases hv : validate_activity_name n with
  | some e2 => rw [unregister_eq_of_validate_error s n e e2 hv]
  | none =>
    cases hf : Store.find? s n with
    | none => rw [unregister_eq_of_not_found s n e hv hf]
    | some a =>
      by_cases hm : e ∈ a.participants.getD []
      · rw [unregister_eq_of_success s n e a hv hf hm] at h
        simp at h
      · rw [unregister_eq_of_not_signed s n e a hv hf hm]

theorem unregister_error_eq (s : Store) (n e : String) (ex : HTTPException)
    (h : (unregister_from_activity s n e).1 = Except.error ex) :
    unregister_from_activity s n e = (Except.error ex, s) := by
  have h2 := unregister_store_unchanged_of_error s n e ex h
  calc unregister_from_activity s n e
      = ((unregister_from_activity s n e).1, (unregister_from_activity s n e).2) :=
        Prod.mk.eta.symm
    _ = (Except.error ex, s) := by rw [h, h2]

/-- C1: for every activity name that is a key in the store, every resolved
(hence non-empty) email not already on the roster of that activity, and a name
passing validation, signup returns the success message naming the email and
activity, and the participant sequence afterwards is the old sequence with the email
appended: it grows by exactly one, every prior element keeps its position, and the
new email is last. -/
theorem signup_appends_new_email (s : Store) (n : String) (p q : Option String)
    (e : String) (a : Activity)
    (hv : validate_activity_name n = none)
    (he : resolveEmail p q = some e)
    (hf : Store.find? s n = some a)
    (hm : e ∉ a.participants.getD []) :
    (signup_for_activity s n p q).1 =
      Except.ok ("Signed up " ++ e ++ " for " ++ n) ∧
    Store.find? (signup_for_activity s n p q).2 n =
      some (a.withParticipants (a.participants.getD [] ++ [e])) ∧
    (a.participants.getD [] ++ [e]).length = (a.participants.getD []).length + 1 ∧
    (∀ i, i < (a.participants.getD []).length →
      (a.participants.getD [] ++ [e])[i]? = (a.participants.getD [])[i]?) ∧
    (a.participants.getD [] ++ [e])[(a.participants.getD []).length]? = some e := by
  rw [signup_eq_of_success s n p q e a hv he hf hm]
  refine ⟨rfl, Store.find?_set_self _ _ _, by simp, ?_, by simp⟩
  intro i hi
  exact List.getElem?_append_left hi

theorem signup_appends_new_email_check :
    (signup_for_activity default_activities "Chess Club"
      (some "newstudent@mergington.edu") none).1 =
      Except.ok ("Signed up " ++ "newstudent@mergington.edu" ++ " for " ++ "Chess Club") ∧
    Store.find? (signup_for_activity default_activities "Chess Club"
      (some "newstudent@mergington.edu") none).2 "Chess Club" =
      some (chessClubRecord.withParticipants
        (chessClubRecord.participants.getD [] ++ ["newstudent@mergington.edu"])) ∧
    (chessClubRecord.participants.getD [] ++ ["newstudent@mergington.edu"]).length =
      (chessClubRecord.participants.getD []).length + 1 ∧
    (∀ i, i < (chessClubRecord.participants.getD []).length →
      (chessClubRecord.participants.getD [] ++ ["newstudent@mergington.edu"])[i]? =
      (chessClubRecord.participants.getD [])[i]?) ∧
    (chessClubRecord.participants.getD [] ++
      ["newstudent@mergington.edu"])[(chessClubRecord.participants.getD []).length]? =
      some "newstudent@mergington.edu" :=
  signup_appends_new_email default_activities "Chess Club"
    (some "newstudent@mergington.edu") none "newstudent@mergington.edu"
    chessClubRecord (by decide) (by decide) (by decide) (by decide)

/-- C2: for an existing activity with a valid name, unregister of a present email
removes exactly the first occurrence of that email, keeping all other elements in
relative order, and returns the success message; unregister of an absent email
fails with the not-signed-up error and leaves the store unchanged. -/
theorem unregister_removes_first_occurrence (s : Store) (n e : String) (a : Activity)
    (hv : validate_activity_name n = none)
    (hf : Store.find? s n = some a) :
    (e ∈ a.participants.getD [] →
      unregister_from_activity s n e =
        (Except.ok ("Unregistered " ++ e ++ " from " ++ n),
         Store.set s n (a.withParticipants ((a.participants.getD []).erase e))) ∧
      ∃ l1 l2, e ∉ l1 ∧ a.participants.getD [] = l1 ++ e :: l2 ∧
        (a.participants.getD []).erase e = l1 ++ l2) ∧
    (e ∉ a.participants.getD [] →
      unregister_from_activity s n e =
        (Except.error ⟨400, "Student is not signed up for this activity"⟩, s)) := by
  constructor
  · intro hm
    exact ⟨unregister_eq_of_success s n e a hv hf hm, List.exists_erase_eq hm⟩
  · intro hm
    exact unregister_eq_of_not_signed s n e a hv hf hm

theorem unregister_removes_first_occurrence_check :
    unregister_from_activity default_activities "Chess Club" "michael@mergington.edu" =
      (Except.ok ("Unregistered " ++ "michael@mergington.edu" ++ " from " ++ "Chess Club"),
       Store.set default_activities "Chess Club"
         (chessClubRecord.withParticipants
           ((chessClubRecord.participants.getD []).erase "michael@mergington.edu"))) ∧
    ∃ l1 l2, "michael@mergington.edu" ∉ l1 ∧
      chessClubRecord.participants.getD [] = l1 ++ "michael@mergington.edu" :: l2 ∧
      (chessClubRecord.participants.getD []).erase "michael@mergington.edu" = l1 ++ l2 :=
  (unregister_removes_first_occurrence default_activities "Chess Club"
    "michael@mergington.edu" chessClubRecord (by decide) (by decide)).1 (by decide)

/-- C3 counterexample: the claim says validation succeeds exactly for names whose
characters lie in the ASCII set `[A-Za-z0-9_]`, ASCII whitespace, hyphen,
apostrophe; but the Latin-1 letter `0xE9` is outside that set and the code
(Python Unicode `\w`) accepts the one-character name made of it. -/
theorem validate_accepts_non_ascii_letter :
    validate_activity_name (String.mk [Char.ofNat 0xE9]) = none ∧
    specAsciiAllowed (Char.ofNat 0xE9) = false ∧
    Char.ofNat 0xE9 ∈ (String.mk [Char.ofNat 0xE9]).data := by
  refine ⟨by decide, by decide, by decide⟩

/-- C3 (amended): `validate_activity_name` succeeds exactly for names of length 1
to 100 all of whose characters are Python word characters, Python whitespace,
hyphen, or apostrophe; that set contains the whole ASCII set the claim names, but
is strictly larger. On a bad length it fails with the length error, and on an
out-of-set character with the character error. The function is pure by
construction. Character-class fidelity to Python is modelled for code points
below `0x100`, hence the restriction. -/
theorem validate_name_characterization (name : String)
    (hlat : ∀ c ∈ name.data, c.toNat < 0x100) :
    (validate_activity_name name = none ↔
      1 ≤ name.length ∧ name.length ≤ 100 ∧
      ∀ c ∈ name.data, nameAllowedChar c = true) ∧
    (∀ c : Char, specAsciiAllowed c = true → nameAllowedChar c = true) ∧
    (¬ (1 ≤ name.length ∧ name.length ≤ 100) →
      validate_activity_name name = some ⟨400, "Invalid activity name length"⟩) ∧
    (1 ≤ name.length ∧ name.length ≤ 100 →
      ¬ (∀ c ∈ name.data, nameAllowedChar c = true) →
      validate_activity_name name =
        some ⟨400, "Activity name contains invalid characters"⟩) := by
  have hlen : name.length = name.data.length := rfl
  refine ⟨validate_activity_name_eq_none_iff name, ?_, ?_, ?_⟩
  · intro c hc
    simp only [specAsciiAllowed, Bool.or_eq_true, Bool.and_eq_true, beq_iff_eq,
      decide_eq_true_eq] at hc
    simp only [nameAllowedChar, pyWordChar, pySpaceChar, Bool.or_eq_true,
      Bool.and_eq_true, beq_iff_eq, bne_iff_ne, ne_eq, decide_eq_true_eq]
    by_cases h45 : c.toNat = 45
    · exact Or.inl (Or.inr (char_eq_ofNat_of_toNat_eq h45 (by decide)))
    · by_cases h39 : c.toNat = 39
      · exact Or.inr (char_eq_ofNat_of_toNat_eq h39 (by decide))
      · refine Or.inl (Or.inl ?_)
        omega
  · intro hl
    unfold validate_activity_name
    rw [if_neg hl]
  · intro hl hbad
    have hne : name.data ≠ [] := by
      have h1 := hl.1
      rw [hlen] at h1
      exact List.length_pos.mp h1
    have hre : ¬ nameRegexAccepts name = true := by
      intro hacc
      exact hbad ((nameRegexAccepts_iff name).mp hacc).2
    unfold validate_activity_name
    rw [if_pos hl, if_neg hre]

theorem validate_name_characterization_check :
    validate_activity_name "Chess Club" = none ↔
      1 ≤ "Chess Club".length ∧ "Chess Club".length ≤ 100 ∧
      ∀ c ∈ "Chess Club".data, nameAllowedChar c = true :=
  (validate_name_characterization "Chess Club" (by decide)).1

/-- C4 counterexample: the claim says a read or parse failure of the external
source yields the built-in three-activity defaults; in the code that path yields
the empty mapping, which differs from the non-empty defaults. -/
theorem load_malformed_gives_empty_store :
    load_activities ActivitiesSource.unreadable = [] ∧
    load_activities ActivitiesSource.unreadable ≠ default_activities ∧
    default_activities.length = 3 := by
  refine ⟨rfl, by decide, rfl⟩

/-- C4 (amended): loading never fails: if the source is absent the store is the
fixed built-in set of the three sample activities with their listed schedules,
capacities and seed participants; if reading or parsing the existing source fails
the store is the empty mapping; if parsing succeeds the parsed mapping is used. -/
theorem load_activities_spec :
    load_activities ActivitiesSource.absent = default_activities ∧
    load_activities ActivitiesSource.unreadable = [] ∧
    (∀ m : Store, load_activities (ActivitiesSource.parsed m) = m) ∧
    default_activities.map Prod.fst =
      ["Chess Club", "Programming Class", "Gym Class"] ∧
    Store.find? default_activities "Chess Club" = some chessClubRecord ∧
    Store.find? default_activities "Programming Class" = some programmingClassRecord ∧
    Store.find? default_activities "Gym Class" = some gymClassRecord ∧
    chessClubRecord.schedule = "Fridays, 3:30 PM - 5:00 PM" ∧
    chessClubRecord.max_participants = 12 ∧
    chessClubRecord.participants =
      some ["michael@mergington.edu", "daniel@mergington.edu"] ∧
    programmingClassRecord.schedule = "Tuesdays and Thursdays, 3:30 PM - 4:30 PM" ∧
    programmingClassRecord.max_participants = 20 ∧
    programmingClassRecord.participants =
      some ["emma@mergington.edu", "sophia@mergington.edu"] ∧
    gymClassRecord.schedule = "Mondays, Wednesdays, Fridays, 2:00 PM - 3:00 PM" ∧
    gymClassRecord.max_participants = 30 ∧
    gymClassRecord.participants =
      some ["john@mergington.edu", "olivia@mergington.edu"] := by
  refine ⟨rfl, rfl, fun m => rfl, by decide, by decide, by decide, by decide,
    rfl, rfl, rfl, rfl, rfl, rfl, rfl, rfl, rfl⟩

theorem load_activities_spec_check :
    load_activities (ActivitiesSource.parsed default_activities) =
      default_activities :=
  load_activities_spec.2.2.1 default_activities

/-- C5: signup performs no capacity check: even when the roster length already
meets or exceeds `max_participants`, a valid non-duplicate signup succeeds and
appends the email. -/
theorem signup_ignores_capacity (s : Store) (n : String) (p q : Option String)
    (e : String) (a : Activity)
    (hv : validate_activity_name n = none)
    (he : resolveEmail p q = some e)
    (hf : Store.find? s n = some a)
    (hm : e ∉ a.participants.getD [])
    (hcap : a.max_participants ≤ (a.participants.getD []).length) :
    signup_for_activity s n p q =
      (Except.ok ("Signed up " ++ e ++ " for " ++ n),
       Store.set s n (a.withParticipants (a.participants.getD [] ++ [e]))) :=
  signup_eq_of_success s n p q e a hv he hf hm

theorem signup_ignores_capacity_check :
    signup_for_activity fullRosterStore "Chess Club"
      (some "bob@mergington.edu") none =
      (Except.ok ("Signed up " ++ "bob@mergington.edu" ++ " for " ++ "Chess Club"),
       Store.set fullRosterStore "Chess Club"
         ((⟨"Chess", "Fridays", 1, some ["alice@mergington.edu"]⟩ : Activity).withParticipants
           ((⟨"Chess", "Fridays", 1,
              some ["alice@mergington.edu"]⟩ : Activity).participants.getD [] ++
            ["bob@mergington.edu"]))) :=
  signup_ignores_capacity fullRosterStore "Chess Club" (some "bob@mergington.edu")
    none "bob@mergington.edu" ⟨"Chess", "Fridays", 1, some ["alice@mergington.edu"]⟩
    (by decide) (by decide) (by decide) (by decide) (by decide)

/-- C6: email channel behavior of signup: when both the JSON-body email and the
legacy query email are non-empty the body one is resolved, used and reported; when
only the legacy one is non-empty it is resolved; when neither channel yields a
non-empty email signup fails with the missing-email error, after name validation
(an invalid name wins) and before the existence check (the missing-email error is
returned even when the activity is absent from the store). -/
theorem signup_email_precedence :
    (∀ pe qe : String, pe ≠ "" → resolveEmail (some pe) (some qe) = some pe) ∧
    (∀ qe : String, qe ≠ "" →
       resolveEmail none (some qe) = some qe ∧
       resolveEmail (some "") (some qe) = some qe) ∧
    (∀ p q : Option String, resolveEmail p q = none ↔
       truthyStr p = false ∧ truthyStr q = false) ∧
    (∀ (s : Store) (n : String) (p q : Option String),
       validate_activity_name n = none → resolveEmail p q = none →
       signup_for_activity s n p q = (Except.error ⟨400, "Email is required"⟩, s)) ∧
    (∀ (s : Store) (n : String) (p q : Option String) (ex : HTTPException),
       validate_activity_name n = some ex →
       signup_for_activity s n p q = (Except.error ex, s)) ∧
    (∀ (s : Store) (n : String) (p q : Option String),
       validate_activity_name n = none → resolveEmail p q = none →
       Store.find? s n = none →
       signup_for_activity s n p q = (Except.error ⟨400, "Email is required"⟩, s)) ∧
    (∀ (s : Store) (n pe qe : String) (a : Activity),
       validate_activity_name n = none → pe ≠ "" →
       Store.find? s n = some a → pe ∉ a.participants.getD [] →
       signup_for_activity s n (some pe) (some qe) =
         (Except.ok ("Signed up " ++ pe ++ " for " ++ n),
          Store.set s n (a.withParticipants (a.participants.getD [] ++ [pe])))) := by
  have hres : ∀ pe qe : String, pe ≠ "" → resolveEmail (some pe) (some qe) = some pe := by
    intro pe qe hpe
    simp [resolveEmail, truthyStr, hpe]
  refine ⟨hres, ?_, ?_, ?_, ?_, ?_, ?_⟩
  · intro qe hqe
    constructor <;> simp [resolveEmail, truthyStr, hqe]
  · intro p q
    rcases p with _ | pv
    · rcases q with _ | qv
      · simp [resolveEmail, truthyStr]
      · by_cases hq : qv = "" <;> simp [resolveEmail, truthyStr, hq]
    · rcases q with _ | qv
      · by_cases hp : pv = "" <;> simp [resolveEmail, truthyStr, hp]
      · by_cases hp : pv = "" <;> by_cases hq : qv = "" <;>
          simp [resolveEmail, truthyStr, hp, hq]
  · intro s n p q hv he
    exact signup_eq_of_missing_email s n p q hv he
  · intro s n p q ex hv
    exact signup_eq_of_validate_error s n p q ex hv
  · intro s n p q hv he _
    exact signup_eq_of_missing_email s n p q hv he
  · intro s n pe qe a hv hpe hf hm
    exact signup_eq_of_success s n (some pe) (some qe) pe a hv (hres pe qe hpe) hf hm

theorem signup_email_precedence_check :
    signup_for_activity default_activities "Chess Club"
      (some "bodymail@mergington.edu") (some "querymail@mergington.edu") =
      (Except.ok ("Signed up " ++ "bodymail@mergington.edu" ++ " for " ++ "Chess Club"),
       Store.set default_activities "Chess Club"
         (chessClubRecord.withParticipants
           (chessClubRecord.participants.getD [] ++ ["bodymail@mergington.edu"]))) :=
  signup_email_precedence.2.2.2.2.2.2 default_activities "Chess Club"
    "bodymail@mergington.edu" "querymail@mergington.edu" chessClubRecord
    (by decide) (by decide) (by decide) (by decide)

/-- C7: every error outcome of signup and unregister leaves the store unchanged;
in particular signing up an email already on the roster fails with the
already-signed-up error with the store unchanged, and signing up with a resolved
email for a validly named activity absent from the store fails with the
activity-not-found error with the store unchanged. -/
theorem errors_leave_store_unchanged :
    (∀ (s : Store) (n : String) (p q : Option String) (ex : HTTPException),
       (signup_for_activity s n p q).1 = Except.error ex →
       (signup_for_activity s n p q).2 = s) ∧
    (∀ (s : Store) (n e : String) (ex : HTTPException),
       (unregister_from_activity s n e).1 = Except.error ex →
       (unregister_from_activity s n e).2 = s) ∧
    (∀ (s : Store) (n : String) (p q : Option String) (e : String) (a : Activity),
       validate_activity_name n = none → resolveEmail p q = some e →
       Store.find? s n = some a → e ∈ a.participants.getD [] →
       signup_for_activity s n p q =
         (Except.error ⟨400, "Student is already signed up"⟩, s)) ∧
    (∀ (s : Store) (n : String) (p q : Option String) (e : String),
       validate_activity_name n = none → resolveEmail p q = some e →
       Store.find? s n = none →
       signup_for_activity s n p q = (Except.error ⟨404, "Activity not found"⟩, s)) := by
  refine ⟨?_, ?_, ?_, ?_⟩
  · intro s n p q ex h
    exact signup_store_unchanged_of_error s n p q ex h
  · intro s n e ex h
    exact unregister_store_unchanged_of_error s n e ex h
  · intro s n p q e a hv he hf hm
    exact signup_eq_of_already s n p q e a hv he hf hm
  · intro s n p q e hv he hf
    exact signup_eq_of_not_found s n p q e hv he hf

theorem errors_leave_store_unchanged_check :
    signup_for_activity default_activities "Chess Club"
      (some "michael@mergington.edu") none =
      (Except.error ⟨400, "Student is already signed up"⟩, default_activities) :=
  errors_leave_store_unchanged.2.2.1 default_activities "Chess Club"
    (some "michael@mergington.edu") none "michael@mergington.edu" chessClubRecord
    (by decide) (by decide) (by decide) (by decide)

/-- C8: duplicate-freedom of every roster is preserved by signup and unregister,
on success as well as on failure. -/
theorem operations_preserve_nodup (s : Store) (hs : StoreNodup s) :
    (∀ (n : String) (p q : Option String),
       StoreNodup (signup_for_activity s n p q).2) ∧
    (∀ n e : String, StoreNodup (unregister_from_activity s n e).2) := by
  have hset : ∀ (k : String) (a : Activity) (l : List String),
      l.Nodup → StoreNodup (Store.set s k (a.withParticipants l)) := by
    intro k a l hl p hp
    rcases Store.mem_set hp with h | h
    · exact hs p h
    · subst h
      simpa [Activity.withParticipants] using hl
  constructor
  · intro n p q
    cases hv : validate_activity_name n with
    | some ex => rw [signup_eq_of_validate_error s n p q ex hv]; exact hs
    | none =>
      cases he : resolveEmail p q with
      | none => rw [signup_eq_of_missing_email s n p q hv he]; exact hs
      | some e =>
        cases hf : Store.find? s n with
        | none => rw [signup_eq_of_not_found s n p q e hv he hf]; exact hs
        | some a =>
          have hroster : (a.participants.getD []).Nodup :=
            hs (n, a) (Store.find?_mem hf)
          by_cases hm : e ∈ a.participants.getD []
          · rw [signup_eq_of_already s n p q e a hv he hf hm]; exact hs
          · rw [signup_eq_of_success s n p q e a hv he hf hm]
            refine hset n a _ ?_
            simp only [List.nodup_append]
            refine ⟨hroster, by simp, ?_⟩
            intro x hx hxe
            rw [List.mem_singleton] at hxe
            subst hxe
            exact hm hx
  · intro n e
    cases hv : validate_activity_name n with
    | some ex => rw [unregister_eq_of_validate_error s n e ex hv]; exact hs
    | none =>
      cases hf : Store.find? s n with
      | none => rw [unregister_eq_of_not_found s n e hv hf]; exact hs
      | some a =>
        have hroster : (a.participants.getD []).Nodup :=
          hs (n, a) (Store.find?_mem hf)
        by_cases hm : e ∈ a.participants.getD []
        · rw [unregister_eq_of_success s n e a hv hf hm]
          exact hset n a _ (List.Nodup.erase e hroster)
        · rw [unregister_eq_of_not_signed s n e a hv hf hm]; exact hs

theorem operations_preserve_nodup_check :
    StoreNodup (signup_for_activity default_activities "Chess Club"
      (some "newcomer@mergington.edu") none).2 :=
  (operations_preserve_nodup default_activities (by decide)).1 "Chess Club"
    (some "newcomer@mergington.edu") none

/-- C9: idempotence of failure: if signup or unregister fails, the call returns the
error with the store unchanged, and repeating the same call on the resulting store
with identical inputs yields the identical error and again leaves that store
unchanged. -/
theorem failed_operations_idempotent :
    (∀ (s : Store) (n : String) (p q : Option String) (ex : HTTPException),
       (signup_for_activity s n p q).1 = Except.error ex →
       signup_for_activity s n p q = (Except.error ex, s) ∧
       signup_for_activity (signup_for_activity s n p q).2 n p q =
         (Except.error ex, (signup_for_activity s n p q).2)) ∧
    (∀ (s : Store) (n e : String) (ex : HTTPException),
       (unregister_from_activity s n e).1 = Except.error ex →
       unregister_from_activity s n e = (Except.error ex, s) ∧
       unregister_from_activity (unregister_from_activity s n e).2 n e =
         (Except.error ex, (unregister_from_activity s n e).2)) := by
  constructor
  · intro s n p q ex h
    have heq := signup_error_eq s n p q ex h
    have h2 : (signup_for_activity s n p q).2 = s := by rw [heq]
    rw [h2]
    exact ⟨heq, heq⟩
  · intro s n e ex h
    have heq := unregister_error_eq s n e ex h
    have h2 : (unregister_from_activity s n e).2 = s := by rw [heq]
    rw [h2]
    exact ⟨heq, heq⟩

theorem failed_operations_idempotent_check :
    unregister_from_activity default_activities "Chess Club" "ghost@mergington.edu" =
      (Except.error ⟨400, "Student is not signed up for this activity"⟩,
       default_activities) ∧
    unregister_from_activity
        (unregister_from_activity default_activities "Chess Club"
          "ghost@mergington.edu").2 "Chess Club" "ghost@mergington.edu" =
      (Except.error ⟨400, "Student is not signed up for this activity"⟩,
       (unregister_from_activity default_activities "Chess Club"
         "ghost@mergington.edu").2) :=
  failed_operations_idempotent.2 default_activities "Chess Club"
    "ghost@mergington.edu" ⟨400, "Student is not signed up for this activity"⟩ rfl

/-- C10: on a stored record lacking the participants field, signup treats the
roster as empty, installs the field and appends, so it succeeds with roster
exactly the new email; unregister on the same record fails with the not-signed-up
error for every email, leaves the store unchanged and hence does not create the
field. -/
theorem signup_installs_missing_roster (s : Store) (n : String) (a : Activity)
    (p q : Option String) (e em : String)
    (hv : validate_activity_name n = none)
    (hf : Store.find? s n = some a)
    (hnone : a.participants = none) :
    (resolveEmail p q = some e →
       signup_for_activity s n p q =
         (Except.ok ("Signed up " ++ e ++ " for " ++ n),
          Store.set s n (a.withParticipants [e]))) ∧
    unregister_from_activity s n em =
      (Except.error ⟨400, "Student is not signed up for this activity"⟩, s) ∧
    Store.find? (unregister_from_activity s n em).2 n = some a := by
  have hget : a.participants.getD [] = [] := by rw [hnone]; rfl
  have hnm : ∀ x : String, x ∉ a.participants.getD [] := by
    intro x hx
    rw [hget] at hx
    cases hx
  constructor
  · intro he
    have hsucc := signup_eq_of_success s n p q e a hv he hf (hnm e)
    rw [hget] at hsucc
    simpa using hsucc
  · have hun := unregister_eq_of_not_signed s n em a hv hf (hnm em)
    refine ⟨hun, ?_⟩
    rw [hun]
    exact hf

theorem signup_installs_missing_roster_check :
    (resolveEmail (some "painter@mergington.edu") none =
        some "painter@mergington.edu" →
      signup_for_activity noRosterStore "Art Club"
        (some "painter@mergington.edu") none =
        (Except.ok ("Signed up " ++ "painter@mergington.edu" ++ " for " ++ "Art Club"),
         Store.set noRosterStore "Art Club"
           ((⟨"Drawing and painting", "Mondays", 5, none⟩ : Activity).withParticipants
             ["painter@mergington.edu"]))) ∧
    unregister_from_activity noRosterStore "Art Club" "anyone@mergington.edu" =
      (Except.error ⟨400, "Student is not signed up for this activity"⟩,
       noRosterStore) ∧
    Store.find? (unregister_from_activity noRosterStore "Art Club"
      "anyone@mergington.edu").2 "Art Club" =
      some ⟨"Drawing and painting", "Mondays", 5, none⟩ :=
  signup_installs_missing_roster noRosterStore "Art Club"
    ⟨"Drawing and painting", "Mondays", 5, none⟩ (some "painter@mergington.edu")
    none "painter@mergington.edu" "anyone@mergington.edu"
    (by decide) (by decide) (by decide)

example : validate_activity_name "Chess Club" = none := by decide

example :
    validate_activity_name "Bad/Name!" =
      some ⟨400, "Activity name contains invalid characters"⟩ := by decide

example : validate_activity_name "" = some ⟨400, "Invalid activity name length"⟩ := by
  decide

end HighSchoolApi
